import Mathlib

/-!
Shallow embedding of the libdns-digitalocean adapter (package `digitalocean`).

Modelling conventions:
* Go `time.Duration` is a signed 64-bit count of nanoseconds, modelled as an
  `Int` of nanoseconds. The wire-TTL-to-duration conversion
  `time.Duration(entry.TTL) * time.Second` is int64 multiplication and
  wraps around; the wrap is modelled explicitly by `wrapInt64`.
* `int(d.Seconds())` goes through float64 and truncates toward zero; it is
  modelled as exact truncation (`Int.tdiv` by 1e9). The two differ only on
  durations with a fractional-second part whose float64 sum rounds to the
  next whole second (e.g. 16777216999999999 ns: Go yields 16777217, the
  model 16777216) or whose second count reaches 2^53; on whole-second
  durations inside int64 — every duration `godoToRecord` constructs — the
  two agree exactly.
* The godo client is the external collaborator: each operation takes the
  relevant provider call as an explicit function argument, and results are
  instrumented with the network calls issued (a count, or the ordered list
  of requested page options for the lister).
* Go's `(record, err)` return pairs become `Record × Option GoError`.
-/

/-- Generic record model, Go `libdns.RR` (fields Name, Type, Data, TTL).
The Go field `Type` is spelled `Ty` because `Type` is a Lean keyword. -/
structure RR where
  Name : String
  Ty : String
  Data : String
  TTL : Int
deriving DecidableEq

/-- Adapter-owned record type, Go `type DNS struct` from model.go:
a `libdns.RR` plus the provider's record ID kept as a decimal string. -/
structure DNS where
  Record : RR
  ID : String
deriving DecidableEq

/-- Go `func (d DNS) RR() libdns.RR { return d.Record }`. -/
def DNS.RR (d : DNS) : RR := d.Record

/-- A value of the Go interface `libdns.Record`: either a bare `libdns.RR`
(or any other implementation, which the adapter only ever uses through its
`RR()` method) or the adapter's identified type `DNS`. -/
inductive Record where
  | rr (r : RR)
  | dns (d : DNS)
deriving DecidableEq

/-- The interface method `record.RR()`. -/
def Record.RR : Record → RR
  | .rr r => r
  | .dns d => d.RR

/-- Provider wire record, godo `DomainRecord` (the fields the adapter reads).
`ID` and `TTL` are Go `int`; `TTL` is in whole seconds. -/
structure DomainRecord where
  ID : Int
  Ty : String
  Name : String
  Data : String
  TTL : Int
deriving DecidableEq

/-- Provider wire edit request, godo `DomainRecordEditRequest`
(the fields the adapter writes); `TTL` in whole seconds. -/
structure DomainRecordEditRequest where
  Name : String
  Data : String
  Ty : String
  TTL : Int
deriving DecidableEq

/-- Go `int(d.Seconds())` on a duration `d` of nanoseconds: truncation
toward zero, i.e. t-division by 10^9. Go computes this through float64,
which can round a fractional-second part up (see the module comment); on
whole-second durations inside int64 this model agrees with Go exactly. -/
def durationSeconds (d : Int) : Int := Int.tdiv d 1000000000

/-- Go signed 64-bit (two's-complement) wrap-around of an integer, as
performed by int64 arithmetic: the representative of `n` modulo 2^64 in
[-2^63, 2^63). The literals are 2^63 and 2^64. -/
def wrapInt64 (n : Int) : Int :=
  (n + 9223372036854775808) % 18446744073709551616 - 9223372036854775808

/-- Go `strconv.Itoa`: decimal rendering of an integer. -/
def itoa (n : Int) : String := toString n

/-- Go `strconv.Atoi`: optional sign, then one or more decimal digits,
value required to fit a 64-bit `int`; anything else is an error (`none`). -/
def atoi (s : String) : Option Int :=
  let p : Bool × List Char :=
    match s.data with
    | '-' :: rest => (true, rest)
    | '+' :: rest => (false, rest)
    | cs => (false, cs)
  match p with
  | (neg, ds) =>
    if ds = [] then none
    else if ds.all Char.isDigit then
      let n : Nat := ds.foldl (fun acc c => acc * 10 + (c.toNat - 48)) 0
      let v : Int := if neg then -(n : Int) else (n : Int)
      if -(2 ^ 63) ≤ v ∧ v < 2 ^ 63 then some v else none
    else none

/-- Go `fromRecord` (model.go): wrap a record's RR fields with an ID. -/
def fromRecord (record : Record) (id : String) : DNS :=
  { Record := record.RR, ID := id }

/-- Go `recordToGoDo` (model.go): generic record to the wire edit request. -/
def recordToGoDo (record : Record) : DomainRecordEditRequest :=
  let rr := record.RR
  { Name := rr.Name, Data := rr.Data, Ty := rr.Ty, TTL := durationSeconds rr.TTL }

/-- Go `godoToRecord` (model.go): wire record to the adapter type; TTL is
`time.Duration(entry.TTL) * time.Second` — an int64 multiplication that
wraps for |TTL| ≥ 2^63/10^9 — and ID is `strconv.Itoa(entry.ID)`. -/
def godoToRecord (entry : DomainRecord) : DNS :=
  { Record := { Name := entry.Name, Ty := entry.Ty, Data := entry.Data,
                TTL := wrapInt64 (entry.TTL * 1000000000) },
    ID := itoa entry.ID }

namespace legacy

/-- Go legacy `type dns struct` (the duplicate variant of model.go). -/
structure dns where
  Record : RR
  ID : String
deriving DecidableEq

/-- Legacy `func (d dns) RR() libdns.RR`. -/
def dns.RR (d : dns) : RR := d.Record

/-- Legacy `fromRecord`. -/
def fromRecord (record : Record) (id : String) : dns :=
  { Record := record.RR, ID := id }

/-- Legacy `recordToGoDo`. -/
def recordToGoDo (record : Record) : DomainRecordEditRequest :=
  let rr := record.RR
  { Name := rr.Name, Data := rr.Data, Ty := rr.Ty, TTL := durationSeconds rr.TTL }

/-- Legacy `godoToRecord`; the TTL conversion wraps int64 exactly as in the
current variant. -/
def godoToRecord (entry : DomainRecord) : dns :=
  { Record := { Name := entry.Name, Ty := entry.Ty, Data := entry.Data,
                TTL := wrapInt64 (entry.TTL * 1000000000) },
    ID := itoa entry.ID }

end legacy

/-- An opaque Go `error` value: the `strconv` parse error carrying its input,
the godo links parse error (`CurrentPage` failing on malformed pagination
metadata), or an API/transport error from the provider client. -/
inductive GoError where
  | atoiError (input : String)
  | pageLinkError
  | api (msg : String)
deriving DecidableEq

/-- The pagination metadata of a godo response (`resp.Links`), as the adapter
uses it: `IsLastPage : Bool`, and `CurrentPage`, which either yields the
current page number or fails to parse (`none`). -/
structure Links where
  IsLastPage : Bool
  CurrentPage : Option Nat
deriving DecidableEq

/-- Outcome of one `Domains.Records(ctx, zone, opt)` call: an error, or a
page of wire records together with optional pagination metadata
(`resp.Links` may be nil). -/
inductive FetchResult where
  | ok (records : List DomainRecord) (links : Option Links)
  | err (e : GoError)
deriving DecidableEq

/-- The identifier extraction prefacing update/delete in client.go:
`var idRaw string; if dnsRecord, ok := record.(DNS); ok { idRaw = dnsRecord.ID }`.
A record that is not of type `DNS` yields the zero value `""`. -/
def recordIdRaw : Record → String
  | .dns d => d.ID
  | .rr _ => ""

/-- Go `addDNSEntry` (client.go): build the wire edit request from the
record's RR fields, call `CreateRecord`, and on success wrap the original
record with the decimal rendering of the returned ID via `fromRecord`.
`createRecord` is the injected godo call (zone, edit request); the final
`Nat` counts the network calls issued. -/
def addDNSEntry (createRecord : String → DomainRecordEditRequest → Except GoError DomainRecord)
    (zone : String) (record : Record) : Record × Option GoError × Nat :=
  let rr := record.RR
  let entry : DomainRecordEditRequest :=
    { Name := rr.Name, Data := rr.Data, Ty := rr.Ty, TTL := durationSeconds rr.TTL }
  match createRecord zone entry with
  | .error e => (record, some e, 1)
  | .ok rec => (.dns (fromRecord record (itoa rec.ID)), none, 1)

/-- Go `removeDNSEntry` (client.go): extract the raw ID, `strconv.Atoi` it
(failure returns the record and the error before any provider call), then
call `DeleteRecord` keyed by the numeric ID. `deleteRecord` is the injected
godo call (zone, id); the final `Nat` counts the network calls issued. -/
def removeDNSEntry (deleteRecord : String → Int → Option GoError)
    (zone : String) (record : Record) : Record × Option GoError × Nat :=
  let idRaw := recordIdRaw record
  match atoi idRaw with
  | none => (record, some (GoError.atoiError idRaw), 0)
  | some id =>
    match deleteRecord zone id with
    | some e => (record, some e, 1)
    | none => (record, none, 1)

/-- Go `updateDNSEntry` (client.go): extract and `Atoi` the raw ID exactly as
in `removeDNSEntry`, build the wire edit request from the record's RR
fields, and call `EditRecord` keyed by the numeric ID; the response body is
discarded. `editRecord` is the injected godo call (zone, id, edit request);
the final `Nat` counts the network calls issued. -/
def updateDNSEntry (editRecord : String → Int → DomainRecordEditRequest → Except GoError DomainRecord)
    (zone : String) (record : Record) : Record × Option GoError × Nat :=
  let idRaw := recordIdRaw record
  match atoi idRaw with
  | none => (record, some (GoError.atoiError idRaw), 0)
  | some id =>
    let rr := record.RR
    let entry : DomainRecordEditRequest :=
      { Name := rr.Name, Data := rr.Data, Ty := rr.Ty, TTL := durationSeconds rr.TTL }
    match editRecord zone id entry with
    | .error e => (record, some e, 1)
    | .ok _ => (record, none, 1)

/-- Go `getDNSEntries` (client.go): the pagination loop. `fetch` is the
injected `Domains.Records` call, keyed by the requested `opt.Page` value
(initially 0, the `ListOptions` zero value). Each page's entries are
translated by `godoToRecord` and appended in order; the loop stops when
`resp.Links` is nil or reports the last page, fails the listing when
`CurrentPage` does not parse, and otherwise requests `page + 1`. The Go
loop is unbounded, so the model takes fuel and returns `none` only on fuel
exhaustion; the final component is the ordered list of requested `opt.Page`
values (its length is the number of listing calls issued). -/
def getDNSEntriesAux (fetch : Nat → FetchResult) :
    Nat → Nat → List Record → Option (List Record × Option GoError × List Nat)
  | 0, _, _ => none
  | fuel + 1, page, acc =>
    match fetch page with
    | .err e => some (acc, some e, [page])
    | .ok domains links =>
      let acc2 := acc ++ domains.map (fun entry => Record.dns (godoToRecord entry))
      match links with
      | none => some (acc2, none, [page])
      | some l =>
        if l.IsLastPage then some (acc2, none, [page])
        else
          match l.CurrentPage with
          | none => some (acc2, some GoError.pageLinkError, [page])
          | some cp =>
            match getDNSEntriesAux fetch fuel (cp + 1) acc2 with
            | none => none
            | some (recs, e, pages) => some (recs, e, page :: pages)

/-- Entry point of the pagination loop: `opt := &godo.ListOptions{}` (page 0)
and an empty accumulator. -/
def getDNSEntries (fetch : Nat → FetchResult) (fuel : Nat) :
    Option (List Record × Option GoError × List Nat) :=
  getDNSEntriesAux fetch fuel 0 []

/-- A well-behaved paginated provider serving the given pages: a request for
`opt.Page = o` returns page `max o 1` (the server treats the absent page
option as page 1), with `CurrentPage` reporting that page number and
`IsLastPage` set exactly on the final page. -/
def goodProvider (pages : List (List DomainRecord)) (req : Nat) : FetchResult :=
  let p := max req 1
  match pages.get? (p - 1) with
  | some recs =>
    .ok recs (some { IsLastPage := decide (p = pages.length), CurrentPage := some p })
  | none => .err (.api "page out of range")

/-- A provider serving the given pages but never signalling the last page
(`IsLastPage` always false), and failing with `e` on the request past the
final page. -/
def failingProvider (pages : List (List DomainRecord)) (e : GoError) (req : Nat) :
    FetchResult :=
  let p := max req 1
  match pages.get? (p - 1) with
  | some recs => .ok recs (some { IsLastPage := false, CurrentPage := some p })
  | none => .err e

/-- A provider whose first page carries malformed pagination metadata:
not the last page, but `CurrentPage` fails to parse. -/
def badLinksProvider (recs : List DomainRecord) (_req : Nat) : FetchResult :=
  .ok recs (some { IsLastPage := false, CurrentPage := none })

/-- Modelled from the spec: `unFQDN` lives in the repository's facade file
(provider.go), which is not among the sources; only its tests are. The spec
says it "strips exactly one trailing `.` if present; otherwise returns input
unchanged", and is pure and total. -/
def unFQDN (fqdn : String) : String :=
  if fqdn.data.getLast? = some '.' then String.mk fqdn.data.dropLast else fqdn

/-- One mutator invocation issued by the facade's `set` operation: an update
of, or a create for, the given input record. There is no listing operation
among these, so a `set` trace cannot contain a zone-state lookup. -/
inductive MutOp where
  | updateOp (record : Record)
  | createOp (record : Record)
deriving DecidableEq

/-- Modelled from the spec: `SetRecords` from the repository's facade file
(provider.go), which is not among the sources; only its tests are. The spec
says: "For each input record: if it carries a non-empty identifier, invoke
update; otherwise invoke create", with the fail-fast partial-completion
semantics of `append` (stop at the first error, returning the records
already produced together with the error). The two mutators are abstract
arguments — the facade consults nothing else to decide between them — and
the final component is the ordered trace of mutator invocations issued. -/
def setRecords (create update : Record → Record × Option GoError) :
    List Record → List Record × Option GoError × List MutOp
  | [] => ([], none, [])
  | r :: rest =>
    if recordIdRaw r ≠ "" then
      match update r with
      | (rec, none) =>
        match setRecords create update rest with
        | (recs, e, ops) => (rec :: recs, e, MutOp.updateOp r :: ops)
      | (_, some e) => ([], some e, [MutOp.updateOp r])
    else
      match create r with
      | (rec, none) =>
        match setRecords create update rest with
        | (recs, e, ops) => (rec :: recs, e, MutOp.createOp r :: ops)
      | (_, some e) => ([], some e, [MutOp.createOp r])

/-- Maps a godo call result `(body, err)` to the error the adapter inspects;
the body itself is discarded by update. -/
def exceptErr (r : Except GoError DomainRecord) : Option GoError :=
  match r with
  | .ok _ => none
  | .error e => some e

/-- An integer already in the signed 64-bit range is unchanged by the
two's-complement wrap. -/
theorem wrapInt64_eq_self {n : Int} (h1 : -9223372036854775808 ≤ n)
    (h2 : n < 9223372036854775808) : wrapInt64 n = n := by
  unfold wrapInt64
  omega

/-- Counterexample to C5 as stated: at wire TTL 10^10 seconds the int64
multiplication `time.Duration(entry.TTL) * time.Second` wraps (10^19 ns
exceeds 2^63 - 1), so the round trip yields -8446744073 seconds, not
10^10 — TTL is not preserved for every wire record. -/
theorem godoToRecord_recordToGoDo_round_trip_counterexample :
    (recordToGoDo (Record.dns (godoToRecord
        ⟨1, "A", "test", "192.168.1.1", 10000000000⟩))).TTL = -8446744073 ∧
    (10000000000 : Int) ≠ -8446744073 := by
  constructor
  · decide
  · decide

/-- C5, amended: for every provider wire record whose TTL scaled to
nanoseconds fits a signed 64-bit duration (|TTL| ≤ (2^63 - 1) / 10^9
seconds, so the int64 multiplication does not wrap), translating it to an
adapter record (`godoToRecord`, TTL as seconds * 1s) and back to the wire
edit request (`recordToGoDo`, TTL truncated to whole seconds) preserves
Name, Type, Data, and TTL. -/
theorem godoToRecord_recordToGoDo_round_trip (entry : DomainRecord)
    (h1 : -9223372036854775808 ≤ entry.TTL * 1000000000)
    (h2 : entry.TTL * 1000000000 < 9223372036854775808) :
    recordToGoDo (Record.dns (godoToRecord entry)) =
      { Name := entry.Name, Data := entry.Data, Ty := entry.Ty, TTL := entry.TTL } := by
  simp [recordToGoDo, godoToRecord, Record.RR, DNS.RR, durationSeconds,
    wrapInt64_eq_self h1 h2,
    Int.mul_tdiv_cancel entry.TTL (by decide : (1000000000 : Int) ≠ 0)]

/-- Witness for the amended C5: the round trip at the repository's test
record (TTL 3600 s, inside the int64 duration range) preserves all four
fields. -/
theorem godoToRecord_recordToGoDo_round_trip_witness :
    (-9223372036854775808 ≤ (3600 : Int) * 1000000000) ∧
    ((3600 : Int) * 1000000000 < 9223372036854775808) ∧
    recordToGoDo (Record.dns (godoToRecord ⟨1, "A", "test", "192.168.1.1", 3600⟩)) =
      { Name := "test", Data := "192.168.1.1", Ty := "A", TTL := 3600 } :=
  ⟨by decide, by decide,
   godoToRecord_recordToGoDo_round_trip ⟨1, "A", "test", "192.168.1.1", 3600⟩
     (by decide) (by decide)⟩

/-- C10: the legacy translator variant (`legacy.dns` with its `fromRecord`,
`recordToGoDo`, `godoToRecord`) and the current variant (`DNS` with the
same functions) are extensionally equal: on every wire record and every
generic record they produce identical RR fields, identical decimal ID
strings, identical wire edit requests, and agree on the `RR()` method. -/
theorem legacy_translator_equivalent :
    (∀ entry : DomainRecord,
        (legacy.godoToRecord entry).Record = (godoToRecord entry).Record ∧
        (legacy.godoToRecord entry).ID = (godoToRecord entry).ID) ∧
    (∀ record : Record, legacy.recordToGoDo record = recordToGoDo record) ∧
    (∀ (record : Record) (id : String),
        (legacy.fromRecord record id).Record = (fromRecord record id).Record ∧
        (legacy.fromRecord record id).ID = (fromRecord record id).ID) ∧
    (∀ d : legacy.dns, d.RR = DNS.RR { Record := d.Record, ID := d.ID }) :=
  ⟨fun _ => ⟨rfl, rfl⟩, fun _ => rfl, fun _ _ => ⟨rfl, rfl⟩, fun _ => rfl⟩

/-- C1: update or delete on a record whose identifier is absent (the record
is not of the adapter's identified type `DNS`) or not parseable as a
decimal integer returns the input record together with the parse error,
issuing zero network calls. -/
theorem update_delete_identifier_gating
    (del : String → Int → Option GoError)
    (edit : String → Int → DomainRecordEditRequest → Except GoError DomainRecord)
    (zone : String) (record : Record)
    (h : (∀ d : DNS, record ≠ Record.dns d) ∨ atoi (recordIdRaw record) = none) :
    removeDNSEntry del zone record =
      (record, some (GoError.atoiError (recordIdRaw record)), 0) ∧
    updateDNSEntry edit zone record =
      (record, some (GoError.atoiError (recordIdRaw record)), 0) := by
  have hnone : atoi (recordIdRaw record) = none := by
    rcases h with h | h
    · cases record with
      | rr r => exact (by decide : atoi "" = none)
      | dns d => exact absurd rfl (h d)
    · exact h
  exact ⟨by simp [removeDNSEntry, hnone], by simp [updateDNSEntry, hnone]⟩

/-- Witness for C1: the delete and update operations on a `DNS` record whose
identifier is the non-numeric string "invalid" (RR fields ⟨Name, Ty, Data,
TTL⟩) return that record and a parse error, with zero network calls. -/
theorem update_delete_identifier_gating_witness :
    atoi (recordIdRaw (Record.dns ⟨⟨"test", "A", "192.168.1.1", 0⟩, "invalid"⟩)) = none ∧
    removeDNSEntry (fun _ _ => none) "example.com"
        (Record.dns ⟨⟨"test", "A", "192.168.1.1", 0⟩, "invalid"⟩) =
      (Record.dns ⟨⟨"test", "A", "192.168.1.1", 0⟩, "invalid"⟩,
       some (GoError.atoiError "invalid"), 0) ∧
    updateDNSEntry (fun _ _ _ => Except.ok ⟨0, "", "", "", 0⟩) "example.com"
        (Record.dns ⟨⟨"test", "A", "192.168.1.1", 0⟩, "invalid"⟩) =
      (Record.dns ⟨⟨"test", "A", "192.168.1.1", 0⟩, "invalid"⟩,
       some (GoError.atoiError "invalid"), 0) :=
  ⟨by decide,
   update_delete_identifier_gating (fun _ _ => none)
     (fun _ _ _ => Except.ok ⟨0, "", "", "", 0⟩)
     "example.com" _ (Or.inr (by decide))⟩

/-- C2: a successful create returns an adapter record carrying the input
record's RR fields and, as identifier, the decimal rendering of the
provider's returned numeric ID; on provider error the original record is
returned unchanged alongside the error. One network call either way. -/
theorem addDNSEntry_spec
    (create : String → DomainRecordEditRequest → Except GoError DomainRecord)
    (zone : String) (record : Record) :
    (∀ rec : DomainRecord, create zone (recordToGoDo record) = .ok rec →
        addDNSEntry create zone record =
          (Record.dns { Record := record.RR, ID := itoa rec.ID }, none, 1)) ∧
    (∀ e : GoError, create zone (recordToGoDo record) = .error e →
        addDNSEntry create zone record = (record, some e, 1)) := by
  constructor
  · intro rec h
    have h' : create zone
        ⟨record.RR.Name, record.RR.Data, record.RR.Ty, durationSeconds record.RR.TTL⟩ =
          .ok rec := h
    simp [addDNSEntry, fromRecord, h']
  · intro e h
    have h' : create zone
        ⟨record.RR.Name, record.RR.Data, record.RR.Ty, durationSeconds record.RR.TTL⟩ =
          .error e := h
    simp [addDNSEntry, h']

/-- Witness for C2: creating an A record against a provider that assigns
numeric ID 12345 yields the same RR fields with identifier "12345"
(mirroring the repository's mock `CreateRecord` collaborator). -/
theorem addDNSEntry_spec_witness :
    ((fun _ req => Except.ok ⟨12345, req.Ty, req.Name, req.Data, req.TTL⟩ :
        String → DomainRecordEditRequest → Except GoError DomainRecord)) "example.com"
      (recordToGoDo (Record.rr ⟨"test", "A", "192.168.1.1", 3600 * 1000000000⟩)) =
      .ok ⟨12345, "A", "test", "192.168.1.1", 3600⟩ ∧
    addDNSEntry
        (fun _ req => Except.ok ⟨12345, req.Ty, req.Name, req.Data, req.TTL⟩)
        "example.com" (Record.rr ⟨"test", "A", "192.168.1.1", 3600 * 1000000000⟩) =
      (Record.dns ⟨⟨"test", "A", "192.168.1.1", 3600 * 1000000000⟩, itoa 12345⟩,
       none, 1) :=
  ⟨rfl,
   (addDNSEntry_spec
      (fun _ req => Except.ok ⟨12345, req.Ty, req.Name, req.Data, req.TTL⟩)
      "example.com" (Record.rr ⟨"test", "A", "192.168.1.1", 3600 * 1000000000⟩)).1
     ⟨12345, "A", "test", "192.168.1.1", 3600⟩ rfl⟩

/-- C8: on a record whose identifier parses to `n`, delete and update both
return the input record unchanged with exactly one network call; the
error component is exactly the provider call's error (none on success,
the provider's error on failure), and update discards the response body. -/
theorem update_delete_return_input
    (del : String → Int → Option GoError)
    (edit : String → Int → DomainRecordEditRequest → Except GoError DomainRecord)
    (zone : String) (record : Record) (n : Int)
    (h : atoi (recordIdRaw record) = some n) :
    removeDNSEntry del zone record = (record, del zone n, 1) ∧
    updateDNSEntry edit zone record =
      (record, exceptErr (edit zone n (recordToGoDo record)), 1) := by
  constructor
  · simp only [removeDNSEntry, h]
    cases del zone n <;> rfl
  · have key : ∀ r : Except GoError DomainRecord,
        (match r with
          | .error e => (record, some e, 1)
          | .ok _ => (record, none, 1)) =
          ((record, exceptErr r, 1) : Record × Option GoError × Nat) := by
      intro r; cases r <;> rfl
    simp only [updateDNSEntry, h]
    exact key _

/-- Witness for C8: deleting and updating a record with identifier "1"
against an always-succeeding provider returns the record unchanged with
one network call and no error. -/
theorem update_delete_return_input_witness :
    atoi (recordIdRaw
        (Record.dns ⟨⟨"test", "A", "192.168.1.2", 7200 * 1000000000⟩, "1"⟩)) = some 1 ∧
    removeDNSEntry (fun _ _ => none) "example.com"
        (Record.dns ⟨⟨"test", "A", "192.168.1.2", 7200 * 1000000000⟩, "1"⟩) =
      (Record.dns ⟨⟨"test", "A", "192.168.1.2", 7200 * 1000000000⟩, "1"⟩,
       (fun _ _ => none : String → Int → Option GoError) "example.com" 1, 1) ∧
    updateDNSEntry
        (fun _ id req => Except.ok ⟨id, req.Ty, req.Name, req.Data, req.TTL⟩)
        "example.com"
        (Record.dns ⟨⟨"test", "A", "192.168.1.2", 7200 * 1000000000⟩, "1"⟩) =
      (Record.dns ⟨⟨"test", "A", "192.168.1.2", 7200 * 1000000000⟩, "1"⟩,
       exceptErr
         ((fun _ id req => Except.ok ⟨id, req.Ty, req.Name, req.Data, req.TTL⟩ :
             String → Int → DomainRecordEditRequest → Except GoError DomainRecord)
           "example.com" 1
           (recordToGoDo
             (Record.dns ⟨⟨"test", "A", "192.168.1.2", 7200 * 1000000000⟩, "1"⟩))),
       1) :=
  ⟨by decide,
   update_delete_return_input (fun _ _ => none)
     (fun _ id req => Except.ok ⟨id, req.Ty, req.Name, req.Data, req.TTL⟩)
     "example.com"
     (Record.dns ⟨⟨"test", "A", "192.168.1.2", 7200 * 1000000000⟩, "1"⟩)
     1 (by decide)⟩

/-- C9: `unFQDN` strips exactly one trailing dot if present ( `unFQDN (s ++ ".")
= s` even when `s` itself ends in a dot) and returns any input without a
trailing dot unchanged; in particular it sends both "example.com." and
"example.com" to "example.com". It is a plain function, hence pure and
total with no error case. -/
theorem unFQDN_spec :
    (∀ s : String, unFQDN (s ++ ".") = s) ∧
    (∀ s : String, s.data.getLast? ≠ some '.' → unFQDN s = s) ∧
    unFQDN "example.com." = "example.com" ∧
    unFQDN "example.com" = "example.com" := by
  refine ⟨?_, ?_, by decide, by decide⟩
  · intro s
    have hdata : (s ++ ".").data = s.data ++ ['.'] := String.data_append s "."
    simp only [unFQDN, hdata, List.getLast?_concat, List.dropLast_concat, if_pos rfl]
    cases s
    rfl
  · intro s h
    simp only [unFQDN, if_neg h]

/-- Witness for C9: the hypothesis-bearing conjunct applied to a concrete
input without a trailing dot, together with the strip-one-dot conjunct at a
concrete input. -/
theorem unFQDN_spec_witness :
    unFQDN ("sub.example.com" ++ ".") = "sub.example.com" ∧
    ("example.com".data.getLast? ≠ some '.') ∧ unFQDN "example.com" = "example.com" :=
  ⟨unFQDN_spec.1 "sub.example.com", by decide, unFQDN_spec.2.1 "example.com" (by decide)⟩

/-- C4: the spec-modelled `set` operation routes each input record carrying a
non-empty identifier to the update mutator and each record with an absent
identifier to the create mutator, in input order; the trace of issued
operations contains nothing else — in particular no listing of existing
zone state (the model has no lister to consult). Stated when the mutators
succeed, so that fail-fast truncation does not cut the trace short. -/
theorem setRecords_dispatch
    (create update : Record → Record × Option GoError) (records : List Record)
    (hc : ∀ r, (create r).2 = none) (hu : ∀ r, (update r).2 = none) :
    setRecords create update records =
      (records.map fun r => if recordIdRaw r ≠ "" then (update r).1 else (create r).1,
       none,
       records.map fun r =>
         if recordIdRaw r ≠ "" then MutOp.updateOp r else MutOp.createOp r) := by
  induction records with
  | nil => rfl
  | cons r rest ih =>
    by_cases hid : recordIdRaw r ≠ ""
    · rcases hup : update r with ⟨rec, e⟩
      have he : e = none := by have := hu r; rwa [hup] at this
      subst he
      simp [setRecords, hid, hup, ih]
    · rcases hcr : create r with ⟨rec, e⟩
      have he : e = none := by have := hc r; rwa [hcr] at this
      subst he
      simp [setRecords, not_not.mp hid, hcr, ih]

/-- Witness for C4: with identity mutators, a two-record batch — one `DNS`
record with identifier "1", one bare RR — issues exactly an update for the
first and a create for the second. -/
theorem setRecords_dispatch_witness :
    (∀ r : Record, ((fun r => (r, none) : Record → Record × Option GoError) r).2 = none) ∧
    setRecords (fun r => (r, none)) (fun r => (r, none))
        [Record.dns ⟨⟨"test", "A", "192.168.1.1", 3600 * 1000000000⟩, "1"⟩,
         Record.rr ⟨"www", "CNAME", "example.com", 1800 * 1000000000⟩] =
      ([Record.dns ⟨⟨"test", "A", "192.168.1.1", 3600 * 1000000000⟩, "1"⟩,
        Record.rr ⟨"www", "CNAME", "example.com", 1800 * 1000000000⟩],
       none,
       [MutOp.updateOp (Record.dns ⟨⟨"test", "A", "192.168.1.1", 3600 * 1000000000⟩, "1"⟩),
        MutOp.createOp (Record.rr ⟨"www", "CNAME", "example.com", 1800 * 1000000000⟩)]) :=
  ⟨fun _ => rfl,
   by
    have h := setRecords_dispatch (fun r => (r, none)) (fun r => (r, none))
      [Record.dns ⟨⟨"test", "A", "192.168.1.1", 3600 * 1000000000⟩, "1"⟩,
       Record.rr ⟨"www", "CNAME", "example.com", 1800 * 1000000000⟩]
      (fun _ => rfl) (fun _ => rfl)
    simpa using h⟩

/-- Loop invariant of the pagination walk against a well-behaved provider:
from a request for page `p` (1 ≤ p ≤ N) the walk appends the translations
of pages p..N in order and requests exactly pages p, p+1, …, N. -/
theorem goodProvider_loop (pages : List (List DomainRecord)) :
    ∀ (fuel p : Nat) (acc : List Record), 1 ≤ p → p ≤ pages.length →
      pages.length - p < fuel →
      getDNSEntriesAux (goodProvider pages) fuel p acc =
        some (acc ++ ((pages.drop (p - 1)).flatten.map fun e => Record.dns (godoToRecord e)),
              none, List.range' p (pages.length - p + 1)) := by
  intro fuel
  induction fuel with
  | zero => intro p acc h1 h2 h3; omega
  | succ f ih =>
    intro p acc h1 h2 h3
    have hlt : p - 1 < pages.length := by omega
    have hfetch : goodProvider pages p =
        .ok pages[p - 1] (some ⟨decide (p = pages.length), some p⟩) := by
      simp [goodProvider, Nat.max_eq_left h1, hlt]
    by_cases hpN : p = pages.length
    · have hdrop : pages.drop (p - 1) = [pages[p - 1]] := by
        rw [List.drop_eq_getElem_cons hlt]
        have hstep : p - 1 + 1 = pages.length := by omega
        rw [hstep, List.drop_length]
      have hdec : decide (p = pages.length) = true := decide_eq_true hpN
      simp only [getDNSEntriesAux, hfetch, hdec, if_true, hdrop]
      rw [show pages.length - p + 1 = 1 from by omega]
      simp
    · have hplt : p < pages.length := lt_of_le_of_ne h2 hpN
      have hrec := ih (p + 1)
        (acc ++ pages[p - 1].map fun e => Record.dns (godoToRecord e))
        (by omega) (by omega) (by omega)
      have hdrop : pages.drop (p - 1) = pages[p - 1] :: pages.drop p := by
        have h := List.drop_eq_getElem_cons hlt
        rwa [show p - 1 + 1 = p by omega] at h
      have hdec : decide (p = pages.length) = false := decide_eq_false hpN
      have hcount : pages.length - p + 1 = (pages.length - (p + 1) + 1) + 1 := by omega
      simp only [getDNSEntriesAux, hfetch, hdec, Bool.false_eq_true, if_false, hrec]
      rw [hdrop, hcount, List.range'_succ, List.range'_succ]
      simp [List.append_assoc]
      rw [List.range'_succ]

/-- C3: for a provider whose listing spans N pages (last-page indicator set
only on page N, links present throughout), the lister returns the
translations of all pages concatenated in server order and issues exactly
N listing calls: the first with the zero page option 0 (page 1), and after
receiving page k a request for page k + 1, so the requested options are
0, 2, 3, …, N. -/
theorem getDNSEntries_pagination (pages : List (List DomainRecord))
    (hne : pages ≠ []) (fuel : Nat) (hfuel : pages.length ≤ fuel) :
    getDNSEntries (goodProvider pages) fuel =
      some (pages.flatten.map (fun e => Record.dns (godoToRecord e)), none,
            0 :: List.range' 2 (pages.length - 1)) := by
  have hlt : 0 < pages.length := List.length_pos.mpr hne
  obtain ⟨f, rfl⟩ : ∃ f, fuel = f + 1 := ⟨fuel - 1, by omega⟩
  have hfetch : goodProvider pages 0 =
      .ok pages[0] (some ⟨decide (1 = pages.length), some 1⟩) := by
    simp [goodProvider, hlt]
  have hflat : pages.flatten = pages[0] ++ (pages.drop 1).flatten := by
    conv_lhs => rw [show pages = pages[0] :: pages.drop 1 from by
      have h := List.drop_eq_getElem_cons hlt
      simpa using h]
    simp
  by_cases h1N : pages.length = 1
  · have hdrop : pages.drop 1 = [] := by
      rw [← h1N, List.drop_length]
    simp [getDNSEntries, getDNSEntriesAux, hfetch, h1N, hflat, hdrop, List.range']
  · have hrec := goodProvider_loop pages f 2
      (List.map (fun e => Record.dns (godoToRecord e)) pages[0])
      (by omega) (by omega) (by omega)
    have hdec : decide (1 = pages.length) = false :=
      decide_eq_false fun h => h1N h.symm
    simp only [getDNSEntries, getDNSEntriesAux, hfetch, hdec, Bool.false_eq_true,
      if_false, List.nil_append, hrec]
    rw [hflat]
    have hcount : pages.length - 2 + 1 = pages.length - 1 := by omega
    simp [hcount]

/-- Witness for C3: two pages of one record each (the repository's test
data) are returned concatenated in order with exactly two listing calls,
requested as page option 0 (page 1) and then page 2. -/
theorem getDNSEntries_pagination_witness :
    ([[(⟨1, "A", "test", "192.168.1.1", 3600⟩ : DomainRecord)],
      [⟨2, "CNAME", "www", "example.com", 1800⟩]] ≠
        ([] : List (List DomainRecord))) ∧
    ([[(⟨1, "A", "test", "192.168.1.1", 3600⟩ : DomainRecord)],
      [⟨2, "CNAME", "www", "example.com", 1800⟩]].length ≤ 2) ∧
    getDNSEntries (goodProvider [[⟨1, "A", "test", "192.168.1.1", 3600⟩],
        [⟨2, "CNAME", "www", "example.com", 1800⟩]]) 2 =
      some ([Record.dns ⟨⟨"test", "A", "192.168.1.1", 3600 * 1000000000⟩, "1"⟩,
             Record.dns ⟨⟨"www", "CNAME", "example.com", 1800 * 1000000000⟩, "2"⟩],
            none, [0, 2]) :=
  ⟨by decide, by decide,
   getDNSEntries_pagination
     [[⟨1, "A", "test", "192.168.1.1", 3600⟩], [⟨2, "CNAME", "www", "example.com", 1800⟩]]
     (by decide) 2 (by decide)⟩

/-- Loop invariant of the pagination walk against a provider that serves its
pages without ever signalling the last page and fails on the request past
them: from a request for page `p` the walk accumulates pages p..N and the
failing call's error, requesting pages p, p+1, …, N+1. -/
theorem failingProvider_loop (pages : List (List DomainRecord)) (e : GoError) :
    ∀ (fuel p : Nat) (acc : List Record), 1 ≤ p → p ≤ pages.length + 1 →
      pages.length + 1 - p < fuel →
      getDNSEntriesAux (failingProvider pages e) fuel p acc =
        some (acc ++ ((pages.drop (p - 1)).flatten.map fun x => Record.dns (godoToRecord x)),
              some e, List.range' p (pages.length + 2 - p)) := by
  intro fuel
  induction fuel with
  | zero => intro p acc h1 h2 h3; omega
  | succ f ih =>
    intro p acc h1 h2 h3
    by_cases hpN : p = pages.length + 1
    · have hget : pages.get? (p - 1) = none := by
        rw [List.get?_eq_getElem?, List.getElem?_eq_none]
        omega
      have hfetch : failingProvider pages e p = .err e := by
        simp only [failingProvider, Nat.max_eq_left h1, hget]
      have hdrop : pages.drop (p - 1) = [] := by
        rw [show p - 1 = pages.length from by omega, List.drop_length]
      simp only [getDNSEntriesAux, hfetch, hdrop]
      rw [show pages.length + 2 - p = 1 from by omega]
      simp
    · have hlt : p - 1 < pages.length := by omega
      have hfetch : failingProvider pages e p =
          .ok pages[p - 1] (some ⟨false, some p⟩) := by
        simp [failingProvider, Nat.max_eq_left h1, hlt]
      have hrec := ih (p + 1)
        (acc ++ pages[p - 1].map fun x => Record.dns (godoToRecord x))
        (by omega) (by omega) (by omega)
      have hdrop : pages.drop (p - 1) = pages[p - 1] :: pages.drop p := by
        have h := List.drop_eq_getElem_cons hlt
        rwa [show p - 1 + 1 = p by omega] at h
      have hcount : pages.length + 2 - p = (pages.length + 2 - (p + 1)) + 1 := by omega
      simp only [getDNSEntriesAux, hfetch, Bool.false_eq_true, if_false, hrec]
      rw [hdrop, hcount, List.range'_succ]
      simp [List.append_assoc]

/-- C6: if some per-page listing request fails, the walk aborts at that
request and returns the provider's error together with the records already
accumulated from the earlier pages, in order (here the pages are served
without a last-page signal and the request after page N fails). -/
theorem getDNSEntries_error_partial (pages : List (List DomainRecord)) (e : GoError)
    (fuel : Nat) (hfuel : pages.length + 1 ≤ fuel) :
    getDNSEntries (failingProvider pages e) fuel =
      some (pages.flatten.map (fun x => Record.dns (godoToRecord x)), some e,
            0 :: List.range' 2 pages.length) := by
  obtain ⟨f, rfl⟩ : ∃ f, fuel = f + 1 := ⟨fuel - 1, by omega⟩
  by_cases hN : pages = []
  · subst hN
    simp [getDNSEntries, getDNSEntriesAux, failingProvider]
  · have hlt : 0 < pages.length := List.length_pos.mpr hN
    have hfetch : failingProvider pages e 0 =
        .ok pages[0] (some ⟨false, some 1⟩) := by
      simp [failingProvider, hlt]
    have hflat : pages.flatten = pages[0] ++ (pages.drop 1).flatten := by
      conv_lhs => rw [show pages = pages[0] :: pages.drop 1 from by
        have h := List.drop_eq_getElem_cons hlt
        simpa using h]
      simp
    have hrec := failingProvider_loop pages e f 2
      (List.map (fun x => Record.dns (godoToRecord x)) pages[0])
      (by omega) (by omega) (by omega)
    simp only [getDNSEntries, getDNSEntriesAux, hfetch, Bool.false_eq_true, if_false,
      List.nil_append, hrec]
    rw [hflat]
    have hcount : pages.length + 2 - 2 = pages.length := by omega
    simp [hcount]

/-- Witness for C6: one served page followed by a failing request returns
the first page's record together with the API error, after two calls. -/
theorem getDNSEntries_error_partial_witness :
    ([[(⟨1, "A", "test", "192.168.1.1", 3600⟩ : DomainRecord)]].length + 1 ≤ 2) ∧
    getDNSEntries (failingProvider [[⟨1, "A", "test", "192.168.1.1", 3600⟩]]
        (GoError.api "API error")) 2 =
      some ([Record.dns ⟨⟨"test", "A", "192.168.1.1", 3600 * 1000000000⟩, "1"⟩],
            some (GoError.api "API error"), [0, 2]) :=
  ⟨by decide,
   getDNSEntries_error_partial [[⟨1, "A", "test", "192.168.1.1", 3600⟩]]
     (GoError.api "API error") 2 (by decide)⟩

/-- C7: when a page's pagination metadata is malformed (`CurrentPage` fails
to parse while the page is not the last), the listing terminates at that
page and the function's error return is the parse error — it is not
silently ignored, and per Go convention the non-nil error takes precedence
over the partial records that accompany it in the return value. -/
theorem getDNSEntries_badLinks (recs : List DomainRecord) (fuel : Nat) :
    getDNSEntries (badLinksProvider recs) (fuel + 1) =
      some (recs.map fun x => Record.dns (godoToRecord x),
            some GoError.pageLinkError, [0]) := by
  simp [getDNSEntries, getDNSEntriesAux, badLinksProvider]
